import Mathlib

/-!
# Cricket auction backend: shallow embedding and verification

This file embeds the bidding state machine of `backend/main.py` (a FastAPI
cricket-auction server) in Lean and proves properties of its operations:
`start_bidding`, `place_bid`, `end_bidding`, `clear_data`, and the snapshot
sent to a newly connected websocket session.

The Python module keeps three pieces of mutable global state:
- `teams`: a dict mapping the four fixed team names to their budgets
  (each starting at 100000);
- `current_bid`: a dict `{player, highest_bid, team, is_active}`;
- a results collection (append-only list of settled-round records, each a
  copy of `current_bid` at settlement time).

We model that state as an explicit `AppState` record threaded through the
handlers; Python ints become `Int`, the nullable fields become `Option`,
and the broadcast calls become a returned list of `Msg` values.
-/

namespace CricketAuction

/-- The four fixed team keys of the `teams` dict in `main.py`. -/
inductive Team where
  | a | b | c | d
deriving DecidableEq

/-- The string key of a team in the `teams` dict. -/
def Team.key : Team → String
  | .a => "Team A"
  | .b => "Team B"
  | .c => "Team C"
  | .d => "Team D"

/-- Membership test and lookup into the `teams` dict: `team in teams`. -/
def Team.ofString (s : String) : Option Team :=
  if s = "Team A" then some .a
  else if s = "Team B" then some .b
  else if s = "Team C" then some .c
  else if s = "Team D" then some .d
  else none

/-- A player record, as stored in the `players` collection. -/
structure Player where
  name : String
  role : String
  base_price : Int
  image : String
deriving DecidableEq

/-- The seed players loaded by `load_sample_players` when the store is empty. -/
def sample_players : List Player :=
  [⟨"Virat Kohli", "Batsman", 50000, "https://i.ibb.co/ZdS5KpR/virat.jpg"⟩,
   ⟨"Rohit Sharma", "Batsman", 45000, "https://i.ibb.co/xFM3W2T/rohit.jpg"⟩,
   ⟨"Jasprit Bumrah", "Bowler", 40000, "https://i.ibb.co/zHq2Nw7/bumrah.jpg"⟩,
   ⟨"Hardik Pandya", "All-Rounder", 42000, "https://i.ibb.co/WgLwKLD/hardik.jpg"⟩,
   ⟨"Ravindra Jadeja", "All-Rounder", 38000, "https://i.ibb.co/3WMLk9C/jadeja.jpg"⟩]

/-- The `current_bid` dict: `{player, highest_bid, team, is_active}`.
The `team` field only ever holds a validated key of the `teams` dict
(it is written exclusively by `place_bid` after the `team in teams` check),
so we store it as `Option Team`. Settled rounds are inserted into the
results collection as a copy of this dict, so a result entry has the same
shape. -/
structure CurrentBid where
  player : Option String
  highest_bid : Int
  team : Option Team
  is_active : Bool
deriving DecidableEq

/-- The all-clear round value `{player: None, highest_bid: 0, team: None,
is_active: False}` (module initialisation, line 54, and the reset at the end
of `end_bidding`, line 185). -/
def CurrentBid.init : CurrentBid :=
  { player := none, highest_bid := 0, team := none, is_active := false }

/-- The whole mutable state of the process: team budgets, the singleton
round, the results collection and the players collection. -/
structure AppState where
  teams : Team → Int
  current_bid : CurrentBid
  results : List CurrentBid
  players : List Player

/-- Initial state: every budget 100000, inactive empty round, results empty,
sample players loaded. -/
def AppState.init : AppState :=
  { teams := fun _ => 100000
    current_bid := CurrentBid.init
    results := []
    players := sample_players }

/-- A websocket message, as broadcast by `manager.broadcast` or sent to a
single session; constructors mirror the `type` field of the JSON payloads. -/
inductive Msg where
  | players_update (players : List Player)
  | budgets_update (budgets : Team → Int)
  | results_update (results : List CurrentBid)
  | start_bidding (player : Option String) (highest_bid : Int)
  | new_bid (player : Option String) (highest_bid : Int) (team : String)
  | end_bidding (player : Option String) (team : Option String) (highest_bid : Int)
  | clear_data

/-- `POST /start_bidding/` (lines 123-133): overwrite `current_bid` with an
active round for `player_name`, broadcast `start_bidding`, confirm. -/
def start_bidding (s : AppState) (player_name : String) :
    AppState × String × List Msg :=
  ({ s with current_bid :=
      { player := some player_name, highest_bid := 0, team := none, is_active := true } },
   "Bidding started for " ++ player_name,
   [Msg.start_bidding (some player_name) 0])

/-- `POST /place_bid/` (lines 135-156): the four validation checks in source
order, then the atomic update of `highest_bid` and `team` plus the `new_bid`
broadcast. Errors are the `{"error": ...}` returns. -/
def place_bid (s : AppState) (team : String) (amount : Int) :
    Except String (AppState × String × List Msg) :=
  if !s.current_bid.is_active then
    Except.error "No active bidding right now"
  else
    match Team.ofString team with
    | none => Except.error "Invalid team name"
    | some t =>
      if amount > s.teams t then
        Except.error (team ++ " does not have enough budget!")
      else if amount ≤ s.current_bid.highest_bid then
        Except.error "Bid must be higher than current bid"
      else
        Except.ok
          ({ s with current_bid :=
              { s.current_bid with highest_bid := amount, team := some t } },
           team ++ " placed a bid of ₹" ++ toString amount,
           [Msg.new_bid s.current_bid.player amount team])

/-- `POST /end_bidding/` (lines 158-186). If no round is active, report
"No active bidding to end." and change nothing. Otherwise deactivate the
round; if a leading team exists, debit its budget by the highest bid
(unconditionally — the source has no underflow check), insert the settled
round dict into results, and broadcast `end_bidding` plus budget, result and
player snapshots; if no leading team, broadcast only `end_bidding` with a
null team. Either way, reset `current_bid` to the all-clear value. -/
def end_bidding (s : AppState) : AppState × String × List Msg :=
  if !s.current_bid.is_active then
    (s, "No active bidding to end.", [])
  else
    let cb : CurrentBid := { s.current_bid with is_active := false }
    match cb.team with
    | some t =>
      let amount := cb.highest_bid
      let teams' : Team → Int := fun x => if x = t then s.teams x - amount else s.teams x
      let results' := s.results ++ [cb]
      ({ teams := teams', current_bid := CurrentBid.init,
         results := results', players := s.players },
       (match cb.player with | some p => p | none => "None") ++ " sold to " ++ t.key
         ++ " for ₹" ++ toString amount ++ ". Remaining budget: ₹" ++ toString (teams' t),
       [Msg.end_bidding cb.player (some t.key) amount,
        Msg.budgets_update teams',
        Msg.results_update results',
        Msg.players_update s.players])
    | none =>
      ({ s with current_bid := CurrentBid.init },
       "No bids placed.",
       [Msg.end_bidding cb.player none 0])

/-- `POST /clear_data/` (lines 108-120): reset every budget to 100000, wipe
the results and players collections, reload the sample players; the round is
left untouched. -/
def clear_data (s : AppState) : AppState × String × List Msg :=
  ({ teams := fun _ => 100000, current_bid := s.current_bid,
     results := [], players := sample_players },
   "All data cleared and sample players reloaded.",
   [Msg.clear_data,
    Msg.players_update sample_players,
    Msg.budgets_update (fun _ => 100000),
    Msg.results_update []])

/-- The ordered sequence of messages a newly connected session receives
(`websocket_endpoint`, lines 193-199): players, budgets, results, and — only
when a round is active — a `start_bidding` message with the round's player
and highest bid. -/
def snapshot (s : AppState) : List Msg :=
  [Msg.players_update s.players,
   Msg.budgets_update s.teams,
   Msg.results_update s.results]
  ++ (if s.current_bid.is_active then
        [Msg.start_bidding s.current_bid.player s.current_bid.highest_bid]
      else [])

/-- One serialized external action against the mutable state. -/
inductive Action where
  | start (player_name : String)
  | bid (team : String) (amount : Int)
  | endRound
  | clear
deriving DecidableEq

/-- Apply one action to the state; a rejected bid leaves the state as it
was (the handler returns the error before any mutation). -/
def applyAction (s : AppState) : Action → AppState
  | .start p => (start_bidding s p).1
  | .bid t a =>
      match place_bid s t a with
      | .ok r => r.1
      | .error _ => s
  | .endRound => (end_bidding s).1
  | .clear => (clear_data s).1

/-- Run a serialized sequence of actions from a state. -/
def run (s : AppState) (acts : List Action) : AppState :=
  acts.foldl applyAction s

/-! ## Characterisation lemmas for the handlers -/

/-- An accepted bid passed every check and performed exactly the
`highest_bid`/`team` update of lines 147-148. -/
lemma place_bid_ok_spec {s : AppState} {team : String} {amount : Int}
    {r : AppState × String × List Msg}
    (h : place_bid s team amount = Except.ok r) :
    ∃ t, Team.ofString team = some t ∧
      s.current_bid.is_active = true ∧
      amount ≤ s.teams t ∧
      s.current_bid.highest_bid < amount ∧
      r.1 = { s with current_bid :=
        { s.current_bid with highest_bid := amount, team := some t } } := by
  unfold place_bid at h
  by_cases hact : s.current_bid.is_active
  · rw [hact] at h
    simp only [Bool.not_true, Bool.false_eq_true, if_false] at h
    cases hof : Team.ofString team with
    | none => rw [hof] at h; exact absurd h (by simp)
    | some t =>
      rw [hof] at h
      dsimp only at h
      by_cases hb : amount > s.teams t
      · rw [if_pos hb] at h; exact absurd h (by simp)
      · rw [if_neg hb] at h
        by_cases hl : amount ≤ s.current_bid.highest_bid
        · rw [if_pos hl] at h; exact absurd h (by simp)
        · rw [if_neg hl] at h
          refine ⟨t, rfl, hact, le_of_not_lt hb, lt_of_not_le hl, ?_⟩
          cases h
          rfl
  · rw [Bool.not_eq_true] at hact
    rw [hact] at h
    exact absurd h (by simp)

/-- `place_bid` on an inactive round is rejected. -/
lemma place_bid_inactive {s : AppState} {team : String} {amount : Int}
    (h : s.current_bid.is_active = false) :
    place_bid s team amount = Except.error "No active bidding right now" := by
  unfold place_bid
  rw [h]
  rfl

/-- `end_bidding` on an inactive round returns the state unchanged with the
"nothing to end" message and no broadcast. -/
lemma end_bidding_inactive {s : AppState}
    (h : s.current_bid.is_active = false) :
    end_bidding s = (s, "No active bidding to end.", []) := by
  unfold end_bidding
  rw [h]
  rfl

/-- `end_bidding` on an active round with a leading team debits that team,
appends the settled round dict, resets the round, and broadcasts the
settlement messages. -/
lemma end_bidding_sold {s : AppState} {t : Team}
    (h : s.current_bid.is_active = true)
    (ht : s.current_bid.team = some t) :
    end_bidding s =
      ({ teams := fun x => if x = t then s.teams x - s.current_bid.highest_bid else s.teams x,
         current_bid := CurrentBid.init,
         results := s.results ++ [{ s.current_bid with is_active := false }],
         players := s.players },
       (match s.current_bid.player with | some p => p | none => "None") ++ " sold to "
         ++ t.key ++ " for ₹" ++ toString s.current_bid.highest_bid
         ++ ". Remaining budget: ₹" ++ toString (s.teams t - s.current_bid.highest_bid),
       [Msg.end_bidding s.current_bid.player (some t.key) s.current_bid.highest_bid,
        Msg.budgets_update
          (fun x => if x = t then s.teams x - s.current_bid.highest_bid else s.teams x),
        Msg.results_update (s.results ++ [{ s.current_bid with is_active := false }]),
        Msg.players_update s.players]) := by
  unfold end_bidding
  rw [h]
  simp only [Bool.not_true, Bool.false_eq_true, if_false]
  have hcb : ({ s.current_bid with is_active := false } : CurrentBid).team
      = some t := ht
  rw [hcb]
  simp

/-- `end_bidding` on an active round with no leading team only resets the
round and broadcasts an `end_bidding` message with a null team. -/
lemma end_bidding_unsold {s : AppState}
    (h : s.current_bid.is_active = true)
    (ht : s.current_bid.team = none) :
    end_bidding s =
      ({ s with current_bid := CurrentBid.init },
       "No bids placed.",
       [Msg.end_bidding s.current_bid.player none 0]) := by
  unfold end_bidding
  rw [h]
  simp only [Bool.not_true, Bool.false_eq_true, if_false]
  have hcb : ({ s.current_bid with is_active := false } : CurrentBid).team
      = none := ht
  rw [hcb]

/-! ## Reachability invariants -/

/-- The inductive invariant of the serialized state machine: the highest bid
is non-negative, every budget lies in `[0, 100000]`, and while a round is
active with a leading team the highest bid is covered by that team's
budget. -/
def Inv (s : AppState) : Prop :=
  0 ≤ s.current_bid.highest_bid ∧
  (∀ t, 0 ≤ s.teams t ∧ s.teams t ≤ 100000) ∧
  (∀ t, s.current_bid.is_active = true → s.current_bid.team = some t →
    s.current_bid.highest_bid ≤ s.teams t)

lemma inv_init : Inv AppState.init := by
  refine ⟨le_refl 0,
    fun t => ⟨by norm_num [AppState.init], by norm_num [AppState.init]⟩,
    fun t hact ht => ?_⟩
  simp [AppState.init, CurrentBid.init] at ht

lemma inv_applyAction {s : AppState} (hs : Inv s) (a : Action) :
    Inv (applyAction s a) := by
  obtain ⟨hnn, hbud, hcov⟩ := hs
  cases a with
  | start p =>
    refine ⟨le_refl 0, hbud, fun t hact ht => ?_⟩
    simp [applyAction, start_bidding] at ht
  | bid team amount =>
    show Inv (match place_bid s team amount with
      | .ok r => r.1
      | .error _ => s)
    cases hpb : place_bid s team amount with
    | error e => exact ⟨hnn, hbud, hcov⟩
    | ok r =>
      obtain ⟨t, hof, hact, hle, hlt, hr⟩ := place_bid_ok_spec hpb
      dsimp only
      rw [hr]
      refine ⟨le_of_lt (lt_of_le_of_lt hnn hlt), hbud, fun u hact2 hu => ?_⟩
      simp only [Option.some.injEq] at hu
      subst hu
      exact hle
  | endRound =>
    show Inv (end_bidding s).1
    by_cases hact : s.current_bid.is_active
    · cases ht : s.current_bid.team with
      | none =>
        rw [end_bidding_unsold hact ht]
        exact ⟨le_refl 0, hbud, fun u h1 h2 => by simp [CurrentBid.init] at h2⟩
      | some t =>
        rw [end_bidding_sold hact ht]
        refine ⟨le_refl 0, fun u => ?_, fun u h1 h2 => by simp [CurrentBid.init] at h2⟩
        dsimp only
        by_cases hu : u = t
        · subst hu
          rw [if_pos rfl]
          have hc := hcov u hact ht
          have := (hbud u).2
          omega
        · rw [if_neg hu]
          exact hbud u
    · rw [Bool.not_eq_true] at hact
      rw [end_bidding_inactive hact]
      exact ⟨hnn, hbud, hcov⟩
  | clear =>
    refine ⟨hnn, fun t => ⟨?_, ?_⟩, fun t hact ht => ?_⟩
    · show (0 : Int) ≤ 100000
      norm_num
    · show (100000 : Int) ≤ 100000
      exact le_refl _
    · show s.current_bid.highest_bid ≤ (100000 : Int)
      calc s.current_bid.highest_bid ≤ s.teams t := hcov t hact ht
        _ ≤ 100000 := (hbud t).2

lemma inv_run (acts : List Action) : Inv (run AppState.init acts) := by
  have h : ∀ (s : AppState), Inv s → Inv (acts.foldl applyAction s) := by
    induction acts with
    | nil => exact fun s hs => hs
    | cons a rest ih => exact fun s hs => ih _ (inv_applyAction hs a)
  exact h _ inv_init

/-- The round-consistency invariant: the highest bid is non-negative and a
leading team is recorded exactly when some bid has been accepted. -/
def Consistent (s : AppState) : Prop :=
  0 ≤ s.current_bid.highest_bid ∧
  (s.current_bid.team ≠ none ↔ 0 < s.current_bid.highest_bid)

lemma consistent_init : Consistent AppState.init := by
  constructor
  · exact le_refl 0
  · show (none : Option Team) ≠ none ↔ (0 : Int) < 0
    simp

lemma consistent_applyAction {s : AppState} (hs : Consistent s) (a : Action) :
    Consistent (applyAction s a) := by
  obtain ⟨hnn, hiff⟩ := hs
  cases a with
  | start p =>
    exact ⟨le_refl 0, by show (none : Option Team) ≠ none ↔ (0 : Int) < 0; simp⟩
  | bid team amount =>
    show Consistent (match place_bid s team amount with
      | .ok r => r.1
      | .error _ => s)
    cases hpb : place_bid s team amount with
    | error e => exact ⟨hnn, hiff⟩
    | ok r =>
      obtain ⟨t, hof, hact, hle, hlt, hr⟩ := place_bid_ok_spec hpb
      dsimp only
      rw [hr]
      have hpos : 0 < amount := lt_of_le_of_lt hnn hlt
      exact ⟨le_of_lt hpos, by simp [hpos]⟩
  | endRound =>
    show Consistent (end_bidding s).1
    by_cases hact : s.current_bid.is_active
    · cases ht : s.current_bid.team with
      | none =>
        rw [end_bidding_unsold hact ht]
        exact ⟨le_refl 0, by simp [CurrentBid.init]⟩
      | some t =>
        rw [end_bidding_sold hact ht]
        exact ⟨le_refl 0, by simp [CurrentBid.init]⟩
    · rw [Bool.not_eq_true] at hact
      rw [end_bidding_inactive hact]
      exact ⟨hnn, hiff⟩
  | clear =>
    exact ⟨hnn, hiff⟩

lemma consistent_run (acts : List Action) : Consistent (run AppState.init acts) := by
  have h : ∀ (s : AppState), Consistent s → Consistent (acts.foldl applyAction s) := by
    induction acts with
    | nil => exact fun s hs => hs
    | cons a rest ih => exact fun s hs => ih _ (consistent_applyAction hs a)
  exact h _ consistent_init

/-! ## Sequences of bids (for the monotonicity property) -/

/-- Apply one `place_bid` call, keeping the state on rejection. -/
def bidStep (s : AppState) (call : String × Int) : AppState :=
  match place_bid s call.1 call.2 with
  | .ok r => r.1
  | .error _ => s

/-- Run a sequence of `place_bid` calls. -/
def runBids (s : AppState) (calls : List (String × Int)) : AppState :=
  calls.foldl bidStep s

lemma bidStep_highest_mono (s : AppState) (call : String × Int) :
    s.current_bid.highest_bid ≤ (bidStep s call).current_bid.highest_bid := by
  unfold bidStep
  cases hpb : place_bid s call.1 call.2 with
  | error e => exact le_refl _
  | ok r =>
    obtain ⟨t, hof, hact, hle, hlt, hr⟩ := place_bid_ok_spec hpb
    dsimp only
    rw [hr]
    exact le_of_lt hlt

lemma runBids_highest_mono (s : AppState) (calls : List (String × Int)) :
    s.current_bid.highest_bid ≤ (runBids s calls).current_bid.highest_bid := by
  induction calls generalizing s with
  | nil => exact le_refl _
  | cons c rest ih =>
    exact le_trans (bidStep_highest_mono s c) (ih (bidStep s c))

/-! ## Claim C1: settlement of a round with a leading team -/

/-- Claim C1: ending an active round whose leading team is `t` debits `t`'s
budget by exactly the highest bid, leaves every other budget unchanged,
appends exactly one result entry carrying the round's player, `t` and the
highest bid, and resets the round to inactive with a null player. -/
theorem c1_end_bidding_settles (s : AppState) (t : Team)
    (hact : s.current_bid.is_active = true)
    (ht : s.current_bid.team = some t) :
    (end_bidding s).1.teams t = s.teams t - s.current_bid.highest_bid ∧
    (∀ u, u ≠ t → (end_bidding s).1.teams u = s.teams u) ∧
    (end_bidding s).1.results =
      s.results ++ [{ player := s.current_bid.player,
                      highest_bid := s.current_bid.highest_bid,
                      team := some t, is_active := false }] ∧
    (end_bidding s).1.current_bid =
      { player := none, highest_bid := 0, team := none, is_active := false } := by
  rw [end_bidding_sold hact ht]
  refine ⟨by simp, fun u hu => by simp [hu], ?_, rfl⟩
  show s.results ++ [{ s.current_bid with is_active := false }] = _
  rw [show ({ s.current_bid with is_active := false } : CurrentBid)
      = { player := s.current_bid.player, highest_bid := s.current_bid.highest_bid,
          team := some t, is_active := false } from by rw [← ht]]

/-- A concrete reachable state with an active round led by Team A at
50000: start bidding for "P1", then Team A bids 50000. -/
def c1_state : AppState :=
  run AppState.init [Action.start "P1", Action.bid "Team A" 50000]

/-- Witness for C1 at `c1_state`. -/
theorem c1_end_bidding_settles_witness :
    c1_state.current_bid.is_active = true ∧
    c1_state.current_bid.team = some Team.a ∧
    ((end_bidding c1_state).1.teams Team.a
        = c1_state.teams Team.a - c1_state.current_bid.highest_bid ∧
     (∀ u, u ≠ Team.a → (end_bidding c1_state).1.teams u = c1_state.teams u) ∧
     (end_bidding c1_state).1.results =
       c1_state.results ++ [{ player := c1_state.current_bid.player,
                              highest_bid := c1_state.current_bid.highest_bid,
                              team := some Team.a, is_active := false }] ∧
     (end_bidding c1_state).1.current_bid =
       { player := none, highest_bid := 0, team := none, is_active := false }) :=
  ⟨by decide, by decide, c1_end_bidding_settles c1_state Team.a (by decide) (by decide)⟩

/-! ## Claim C2: accepted bids strictly increase the highest bid -/

/-- Claim C2: over any sequence of `place_bid` calls against an active
round, the stored highest bid is non-decreasing, and any call accepted at
any point of the sequence strictly exceeds the highest bid stored just
before it and becomes the new stored highest bid. -/
theorem c2_bid_monotone (s : AppState) (calls : List (String × Int))
    (hact : s.current_bid.is_active = true) :
    s.current_bid.highest_bid ≤ (runBids s calls).current_bid.highest_bid ∧
    (∀ pre t a rest, calls = pre ++ (t, a) :: rest →
      ∀ r, place_bid (runBids s pre) t a = Except.ok r →
        (runBids s pre).current_bid.highest_bid < a ∧
        r.1.current_bid.highest_bid = a) := by
  refine ⟨runBids_highest_mono s calls, ?_⟩
  intro pre t a rest hcalls r hok
  obtain ⟨u, hof, hact2, hle, hlt, hr⟩ := place_bid_ok_spec hok
  exact ⟨hlt, by rw [hr]⟩

/-- A concrete active state for the C2 witness. -/
def c2_state : AppState := run AppState.init [Action.start "P1"]

/-- Witness for C2 at `c2_state` with two bids. -/
theorem c2_bid_monotone_witness :
    c2_state.current_bid.is_active = true ∧
    (c2_state.current_bid.highest_bid ≤
      (runBids c2_state [("Team A", 40000), ("Team B", 45000)]).current_bid.highest_bid ∧
     (∀ pre t a rest,
        ([("Team A", 40000), ("Team B", 45000)] : List (String × Int))
          = pre ++ (t, a) :: rest →
        ∀ r, place_bid (runBids c2_state pre) t a = Except.ok r →
          (runBids c2_state pre).current_bid.highest_bid < a ∧
          r.1.current_bid.highest_bid = a)) :=
  ⟨by decide, c2_bid_monotone c2_state [("Team A", 40000), ("Team B", 45000)] (by decide)⟩

/-! ## Claim C3: budgets stay non-negative in every reachable state -/

/-- Claim C3: after any serialized sequence of `start_bidding`, `place_bid`,
`end_bidding` and `clear_data` from the initial state, every team's budget
is non-negative. -/
theorem c3_budget_nonneg (acts : List Action) (t : Team) :
    0 ≤ (run AppState.init acts).teams t :=
  ((inv_run acts).2.1 t).1

/-! ## Claim C4: insufficient budget rejects the bid and changes nothing -/

/-- Claim C4: a bid by a registered team for more than its budget, while a
round is active, fails with the insufficient-budget error and leaves the
whole state (round and every budget) unchanged. -/
theorem c4_insufficient_budget (s : AppState) (team : String) (t : Team) (amount : Int)
    (hact : s.current_bid.is_active = true)
    (hteam : Team.ofString team = some t)
    (hamt : s.teams t < amount) :
    place_bid s team amount =
      Except.error (team ++ " does not have enough budget!") ∧
    applyAction s (Action.bid team amount) = s := by
  have herr : place_bid s team amount =
      Except.error (team ++ " does not have enough budget!") := by
    unfold place_bid
    rw [hact]
    simp only [Bool.not_true, Bool.false_eq_true, if_false]
    rw [hteam]
    dsimp only
    rw [if_pos hamt]
  refine ⟨herr, ?_⟩
  show (match place_bid s team amount with
    | .ok r => r.1
    | .error _ => s) = s
  rw [herr]

/-- A concrete reachable active state for the C4 witness. -/
def c4_state : AppState := run AppState.init [Action.start "P1"]

/-- Witness for C4: Team A bids 200000 with a 100000 budget. -/
theorem c4_insufficient_budget_witness :
    c4_state.current_bid.is_active = true ∧
    Team.ofString "Team A" = some Team.a ∧
    c4_state.teams Team.a < 200000 ∧
    (place_bid c4_state "Team A" 200000 =
       Except.error ("Team A" ++ " does not have enough budget!") ∧
     applyAction c4_state (Action.bid "Team A" 200000) = c4_state) :=
  ⟨by decide, by decide, by decide,
   c4_insufficient_budget c4_state "Team A" Team.a 200000 (by decide) (by decide) (by decide)⟩

/-! ## Claim C5: ending a round with no bids -/

/-- A reachable state with an active round and no accepted bids. -/
def c5_state : AppState := run AppState.init [Action.start "P2"]

/-- Counterexample to C5 as stated: ending an active round with no leading
team appends NO result entry at all — the result log keeps its length, so
no entry with a null winning team is recorded. -/
theorem c5_unsold_counterexample :
    c5_state.current_bid.is_active = true ∧
    c5_state.current_bid.team = none ∧
    (end_bidding c5_state).1.results.length ≠ c5_state.results.length + 1 := by
  decide

/-- Claim C5 (amended): ending an active round with no leading team leaves
the result log and every budget unchanged, emits only the end-of-round
event with a null team and amount 0, and resets the round. The source's
unsold branch never inserts into the results collection. -/
theorem c5_unsold_amended (s : AppState)
    (hact : s.current_bid.is_active = true)
    (ht : s.current_bid.team = none) :
    (end_bidding s).1.results = s.results ∧
    (end_bidding s).1.teams = s.teams ∧
    (end_bidding s).2.2 = [Msg.end_bidding s.current_bid.player none 0] ∧
    (end_bidding s).1.current_bid = CurrentBid.init := by
  rw [end_bidding_unsold hact ht]
  exact ⟨rfl, rfl, rfl, rfl⟩

/-- Witness for the amended C5 at `c5_state`. -/
theorem c5_unsold_amended_witness :
    c5_state.current_bid.is_active = true ∧
    c5_state.current_bid.team = none ∧
    ((end_bidding c5_state).1.results = c5_state.results ∧
     (end_bidding c5_state).1.teams = c5_state.teams ∧
     (end_bidding c5_state).2.2 =
       [Msg.end_bidding c5_state.current_bid.player none 0] ∧
     (end_bidding c5_state).1.current_bid = CurrentBid.init) :=
  ⟨by decide, by decide, c5_unsold_amended c5_state (by decide) (by decide)⟩

/-! ## Claim C6: no underflow guard at settlement -/

/-- A crafted state (not reachable by the serialized operations) where the
highest bid exceeds the leading team's budget. -/
def c6_state : AppState :=
  { teams := fun _ => 100000
    current_bid :=
      { player := some "P", highest_bid := 200000, team := some Team.a, is_active := true }
    results := []
    players := sample_players }

/-- Counterexample to C6 as stated: on a state whose highest bid exceeds
the leading team's budget, `end_bidding` does not fail — it debits the team
below zero (there is no underflow check in the source). -/
theorem c6_underflow_counterexample :
    c6_state.current_bid.is_active = true ∧
    c6_state.current_bid.team = some Team.a ∧
    c6_state.teams Team.a < c6_state.current_bid.highest_bid ∧
    (end_bidding c6_state).1.teams Team.a < 0 := by
  decide

/-- Claim C6 (amended): the source debits unconditionally (no underflow
error), but in every state reachable from the initial state by serialized
operations, an active round's highest bid never exceeds the leading team's
budget, so settlement never drives a budget below zero. -/
theorem c6_no_underflow_reachable (acts : List Action) (t : Team)
    (hact : (run AppState.init acts).current_bid.is_active = true)
    (ht : (run AppState.init acts).current_bid.team = some t) :
    (run AppState.init acts).current_bid.highest_bid
        ≤ (run AppState.init acts).teams t ∧
    0 ≤ (end_bidding (run AppState.init acts)).1.teams t := by
  have hcov := (inv_run acts).2.2 t hact ht
  refine ⟨hcov, ?_⟩
  rw [end_bidding_sold hact ht]
  dsimp only
  rw [if_pos rfl]
  omega

/-- Witness for the amended C6 after a start and one accepted bid. -/
theorem c6_no_underflow_reachable_witness :
    (run AppState.init [Action.start "P1", Action.bid "Team A" 50000]).current_bid.is_active
        = true ∧
    (run AppState.init [Action.start "P1", Action.bid "Team A" 50000]).current_bid.team
        = some Team.a ∧
    ((run AppState.init [Action.start "P1", Action.bid "Team A" 50000]).current_bid.highest_bid
        ≤ (run AppState.init [Action.start "P1", Action.bid "Team A" 50000]).teams Team.a ∧
     0 ≤ (end_bidding (run AppState.init [Action.start "P1", Action.bid "Team A" 50000])).1.teams
          Team.a) :=
  ⟨by decide, by decide,
   c6_no_underflow_reachable [Action.start "P1", Action.bid "Team A" 50000] Team.a
     (by decide) (by decide)⟩

/-! ## Claim C7: ending an inactive round is a no-op -/

/-- Claim C7: when no round is active, `end_bidding` returns the state
unchanged (budgets, results and round untouched), reports "No active
bidding to end." and broadcasts nothing. -/
theorem c7_end_inactive_noop (s : AppState)
    (h : s.current_bid.is_active = false) :
    end_bidding s = (s, "No active bidding to end.", []) :=
  end_bidding_inactive h

/-- Witness for C7 at the initial state. -/
theorem c7_end_inactive_noop_witness :
    AppState.init.current_bid.is_active = false ∧
    end_bidding AppState.init = (AppState.init, "No active bidding to end.", []) :=
  ⟨rfl, c7_end_inactive_noop AppState.init rfl⟩

/-! ## Claim C8: the snapshot sent to a newly connected session -/

/-- An active state led by Team A. -/
def c8_state_a : AppState :=
  { teams := fun _ => 100000
    current_bid :=
      { player := some "Virat Kohli", highest_bid := 60000, team := some Team.a,
        is_active := true }
    results := []
    players := sample_players }

/-- The same state but led by Team B. -/
def c8_state_b : AppState :=
  { teams := fun _ => 100000
    current_bid :=
      { player := some "Virat Kohli", highest_bid := 60000, team := some Team.b,
        is_active := true }
    results := []
    players := sample_players }

/-- Counterexample to C8 as stated: two connect-time states with active
rounds that differ only in the leading team produce identical snapshots, so
the snapshot cannot match the server-side state "including the leading
team" — the round message carries only the player and the highest bid. -/
theorem c8_snapshot_counterexample :
    snapshot c8_state_a = snapshot c8_state_b ∧
    c8_state_a.current_bid.is_active = true ∧
    c8_state_b.current_bid.is_active = true ∧
    c8_state_a.current_bid.team ≠ c8_state_b.current_bid.team :=
  ⟨rfl, rfl, rfl, by decide⟩

/-- Claim C8 (amended): a newly connected session receives, in order, the
player list, the team budgets and the full result history, followed —
exactly when a round is active — by the round message carrying the round's
player and highest bid (the leading team is not part of the snapshot). -/
theorem c8_snapshot_amended (s : AppState) :
    (snapshot s).take 3 =
      [Msg.players_update s.players, Msg.budgets_update s.teams,
       Msg.results_update s.results] ∧
    (s.current_bid.is_active = true →
      snapshot s =
        [Msg.players_update s.players, Msg.budgets_update s.teams,
         Msg.results_update s.results,
         Msg.start_bidding s.current_bid.player s.current_bid.highest_bid]) ∧
    (s.current_bid.is_active = false →
      snapshot s =
        [Msg.players_update s.players, Msg.budgets_update s.teams,
         Msg.results_update s.results]) := by
  unfold snapshot
  by_cases h : s.current_bid.is_active
  · rw [if_pos h]
    exact ⟨rfl, fun _ => rfl, fun hf => absurd h (by rw [hf]; exact Bool.false_ne_true)⟩
  · rw [if_neg h]
    rw [Bool.not_eq_true] at h
    exact ⟨rfl, fun ht => absurd ht (by rw [h]; exact Bool.false_ne_true), fun _ => by simp⟩

/-! ## Claim C9: leading team is set iff the highest bid is positive -/

/-- Claim C9: in every state reachable by a serialized sequence of
`start_bidding`, `place_bid` and `end_bidding` (no `clear_data`), the
round's leading team is set iff its highest bid is positive; and
immediately after any `start_bidding` both hold their zero/null
defaults. -/
theorem c9_team_iff_bid (acts : List Action)
    (hnc : ∀ a ∈ acts, a ≠ Action.clear) :
    ((run AppState.init acts).current_bid.team ≠ none ↔
      0 < (run AppState.init acts).current_bid.highest_bid) ∧
    (∀ s p, (start_bidding s p).1.current_bid.highest_bid = 0 ∧
            (start_bidding s p).1.current_bid.team = none) :=
  ⟨(consistent_run acts).2, fun _ _ => ⟨rfl, rfl⟩⟩

/-- Witness for C9 after a start and one accepted bid. -/
theorem c9_team_iff_bid_witness :
    (∀ a ∈ ([Action.start "P1", Action.bid "Team A" 50000] : List Action),
      a ≠ Action.clear) ∧
    (((run AppState.init [Action.start "P1", Action.bid "Team A" 50000]).current_bid.team
        ≠ none ↔
      0 < (run AppState.init
            [Action.start "P1", Action.bid "Team A" 50000]).current_bid.highest_bid) ∧
     (∀ s p, (start_bidding s p).1.current_bid.highest_bid = 0 ∧
             (start_bidding s p).1.current_bid.team = none)) :=
  ⟨by decide, c9_team_iff_bid [Action.start "P1", Action.bid "Team A" 50000] (by decide)⟩

/-! ## Claim C10: start overwrites any round without settlement -/

/-- Claim C10: from any state — including one holding an active round with
accepted bids — `start_bidding` overwrites the round with a fresh active
round for the given player and leaves every budget and the result log
unchanged: the in-progress round is discarded with no debit and no result
entry. -/
theorem c10_start_overwrites (s : AppState) (p : String) :
    (start_bidding s p).1.current_bid =
      { player := some p, highest_bid := 0, team := none, is_active := true } ∧
    (start_bidding s p).1.teams = s.teams ∧
    (start_bidding s p).1.results = s.results :=
  ⟨rfl, rfl, rfl⟩

end CricketAuction
